import Mathlib

/-!
Verification of the mango-explorer market-making core against its
specification.  Python `Decimal` values are modelled as `ℚ`; fallible
Python code (code that may raise) is modelled with `Except`.
-/

namespace MangoExplorer

/-- Order side, from `mango.Side` (BUY / SELL). -/
inductive Side : Type
  | buy
  | sell
deriving DecidableEq, Repr

/-- The fields of `mango.Order` that the market-making core reads:
side, price, size and the locally assigned client (correlation) id. -/
structure Order : Type where
  side : Side
  price : ℚ
  size : ℚ
  clientId : Nat
deriving DecidableEq, Repr

/-- `Order.with_client_id`: a copy of the order carrying the given client id. -/
def Order.with_client_id (o : Order) (id : Nat) : Order :=
  { o with clientId := id }

/-! ## SimpleMarketMaker.orders_require_action
(src/mango/marketmaking/simplemarketmaker.py, lines 157-161) -/

/-- `within_tolerance` from `SimpleMarketMaker.orders_require_action`:
`tolerated = order_value * tolerance`, and the order value must lie
strictly between `target_value - tolerated` and `target_value + tolerated`. -/
def within_tolerance (target_value order_value tolerance : ℚ) : Bool :=
  let tolerated := order_value * tolerance
  decide (order_value < target_value + tolerated)
    && decide (order_value > target_value - tolerated)

/-- `SimpleMarketMaker.orders_require_action`: true when there are no
orders, or when not every order has both price and size within tolerance
of the target price and size. -/
def orders_require_action (orders : List Order) (price size tolerance : ℚ) : Bool :=
  decide (orders.length = 0)
    || !(orders.all fun o =>
          within_tolerance price o.price tolerance
            && within_tolerance size o.size tolerance)

/-! ## RootBank.find_by_address (src/mango/rootbank.py, lines 146-155) -/

/-- The fields of `RootBank` the lookup needs; the address (a Solana
`PublicKey`) is modelled as a `Nat`, the indices as `ℚ`. -/
structure RootBank : Type where
  address : Nat
  depositIndex : ℚ
  borrowIndex : ℚ
deriving DecidableEq, Repr

/-- `RootBank.find_by_address`: filter the values by address; raise when
nothing matched, raise when more than one matched, otherwise return the
single match.  The three-way match on the filtered list is exactly the
source's `len(found) == 0` / `len(found) > 1` / `found[0]` split. -/
def RootBank.find_by_address (values : List RootBank) (address : Nat) :
    Except String RootBank :=
  match values.filter (fun value => value.address == address) with
  | [] => .error "RootBank not found in root banks"
  | [found] => .ok found
  | _ :: _ :: _ => .error "RootBank matched multiple root banks"

/-! ## RetryWithPauses (the retrier) -/

/-- Modelled from the spec: `RetryWithPauses.run` — the retrier's source
(src/mango/retrier.py) is not under src/, only its tests
(src/tests/test_retrier.py) are.  Spec §4.3: attempt the operation; on
success return its result immediately; on failure, while attempts remain
(fewer than the number of pauses made so far), pause and retry; after the
final attempt fails, propagate that failure unchanged.  The fallible
operation is modelled as `op : Nat → Except ε β` giving the outcome of its
k-th call (0-indexed); `retryGo op k m` runs call `k` with `m` retries
remaining and returns the final outcome together with the total number of
calls made. -/
def retryGo {ε β : Type} (op : Nat → Except ε β) (k : Nat) : Nat → Except ε β × Nat
  | 0 => (op k, k + 1)
  | m + 1 =>
    match op k with
    | .ok b => (.ok b, k + 1)
    | .error _ => retryGo op (k + 1) m

/-- Modelled from the spec: `RetryWithPauses.run` with a pause sequence of
length `N ≥ 1` makes up to `N` attempts in total (the number of retries is
`N - 1`, as the tests' comments state); only the pauses' count matters to
the call-count behaviour, not their durations. -/
def retryRun {ε β δ : Type} (op : Nat → Except ε β) (pauses : List δ) :
    Except ε β × Nat :=
  retryGo op 0 (pauses.length - 1)

/-! ## OrderTracker -/

/-- Modelled from the spec: `OrderTracker` state — the tracker's source
(src/mango/marketmaking/ordertracker.py) is not under src/, only its
caller (marketmaker.py) is.  Spec §4.1: a set of orders "we believe we
have submitted and not yet confirmed", held here as the list of tracked
orders. -/
abbrev OrderTrackerState : Type := List Order

/-- Modelled from the spec: `OrderTracker.track(order)` inserts the order
into the tracked set, making it visible to subsequent `existing_orders`
calls. -/
def track (tracked : OrderTrackerState) (o : Order) : OrderTrackerState :=
  tracked ++ [o]

/-- Modelled from the spec: `OrderTracker.existing_orders(remote_view)`
returns every order the remote view reports combined with every tracked
order whose correlation id is not present in the remote view (still "in
flight"), and as a side effect drops tracked entries whose correlation id
the remote view now contains (the tracked copy is no longer needed).
Returns (merged sequence, new tracker state). -/
def existing_orders (tracked : OrderTrackerState) (remote : List Order) :
    List Order × OrderTrackerState :=
  let stillInFlight :=
    tracked.filter fun t => !(remote.any fun r => r.clientId == t.clientId)
  (remote ++ stillInFlight, stillInFlight)

/-! ## MarketMaker.pulse (src/mango/marketmaking/marketmaker.py, lines 56-103)

The collaborators `pulse` calls (the desired-orders chain, the order
reconciler, the market instruction builder, the remote execution) are
external to the core, so they are modelled as an environment of oracles:
each fallible call is an `Except ε` value (a raised Python exception is
`.error e`), instructions are opaque values of a type `α`, and
`random_client_id` is a stream `Nat → Nat` giving the id produced by its
k-th call within the pulse. -/

/-- `ReconciliationResult`: the orders the reconciler wants cancelled and
the orders it wants placed. -/
structure Reconciled : Type where
  to_cancel : List Order
  to_place : List Order
deriving Repr

/-- The environment of one `pulse` invocation: the outcome of every
collaborator call the pulse body can make, in source order. -/
structure PulseEnv (ε α : Type) : Type where
  /-- outcome of `self.desired_orders_chain.process(context, model_state)` -/
  processResult : Except ε (List Order)
  /-- value of `model_state.not_quoting` at the check on line 68 -/
  notQuoting : Bool
  /-- the remote order view inside `model_state` that
  `order_tracker.existing_orders` consults -/
  remoteOrders : List Order
  /-- outcome of `self.order_reconciler.reconcile(model_state, existing, desired)` -/
  reconcile : List Order → List Order → Except ε Reconciled
  /-- outcome of `build_cancel_order_instructions(to_cancel, ok_if_missing=True)` -/
  buildCancel : Order → Except ε (List α)
  /-- the id returned by the k-th call of `context.random_client_id()` -/
  clientId : Nat → Nat
  /-- outcome of `build_place_order_instructions(to_place_with_client_id)` -/
  buildPlace : Order → Except ε (List α)
  /-- outcome of `build_crank_instructions([])` -/
  crank : Except ε (List α)
  /-- outcome of `build_settle_instructions()` -/
  settle : Except ε (List α)
  /-- outcome of `build_redeem_instructions()` -/
  buildRedeem : Except ε (List α)
  /-- instructions of `CombinableInstructions.from_wallet(self.wallet)` -/
  payer : List α
  /-- `model_state.inventory.liquidity_incentives.value` -/
  liquidityIncentives : ℚ
  /-- outcome of `.execute(context)` on the combined instructions -/
  executeResult : List α → Except ε Unit

/-- The cancellation loop (lines 75-79): build cancel instructions for
each order to cancel, accumulating them; a raised exception aborts the
loop. -/
def cancelLoop {ε α : Type} (buildCancel : Order → Except ε (List α)) :
    List Order → List α → Except ε (List α)
  | [], acc => .ok acc
  | o :: rest, acc =>
    match buildCancel o with
    | .error e => .error e
    | .ok ins => cancelLoop buildCancel rest (acc ++ ins)

/-- The placement loop (lines 81-89): for each order to place, draw a
fresh client id, attach it, `track` the order, then build its placement
instructions.  A raised exception aborts the loop *after* the current
order was tracked, so the error carries the tracker state at the failure
point.  `i` counts the `random_client_id` calls made so far. -/
def placeLoop {ε α : Type} (env : PulseEnv ε α) (tracked : OrderTrackerState)
    (i : Nat) : List Order → List α → Except (ε × OrderTrackerState) (OrderTrackerState × List α)
  | [], acc => .ok (tracked, acc)
  | o :: rest, acc =>
    let withId := o.with_client_id (env.clientId i)
    let tracked' := track tracked withId
    match env.buildPlace withId with
    | .error e => .error (e, tracked')
    | .ok ins => placeLoop env tracked' (i + 1) rest (acc ++ ins)

/-- The redeem step (lines 94-96): `CombinableInstructions.empty()` unless
a redeem threshold is configured and the accrued liquidity incentives
strictly exceed it, in which case `build_redeem_instructions()` is called. -/
def redeemStep {ε α : Type} (redeemThreshold : Option ℚ) (env : PulseEnv ε α) :
    Except ε (List α) :=
  match redeemThreshold with
  | none => .ok []
  | some threshold =>
    if env.liquidityIncentives > threshold then env.buildRedeem else .ok []

/-- Result of the `try` body of `pulse`: skipped early (not quoting),
completed, or failed with a raised exception.  Each constructor carries
the tracker state at that point and the list of `.execute` calls made
(each with the full instruction sequence submitted). -/
inductive BodyResult (ε α : Type) : Type
  | skipped (tracked : OrderTrackerState) (executions : List (List α))
  | completed (tracked : OrderTrackerState) (executions : List (List α))
  | failed (e : ε) (tracked : OrderTrackerState) (executions : List (List α))

/-- The `try` body of `MarketMaker.pulse` (lines 58-100), step for step:
desired orders, the `not_quoting` early return, `existing_orders`,
`reconcile`, the cancel loop, the place loop, crank, settle, redeem, and
the single combined `.execute`. -/
def pulseBody {ε α : Type} (redeemThreshold : Option ℚ) (env : PulseEnv ε α)
    (tracked : OrderTrackerState) : BodyResult ε α :=
  match env.processResult with
  | .error e => .failed e tracked []
  | .ok desired =>
    if env.notQuoting then .skipped tracked []
    else
      let eo := existing_orders tracked env.remoteOrders
      match env.reconcile eo.1 desired with
      | .error e => .failed e eo.2 []
      | .ok reconciled =>
        match cancelLoop env.buildCancel reconciled.to_cancel [] with
        | .error e => .failed e eo.2 []
        | .ok cancellations =>
          match placeLoop env eo.2 0 reconciled.to_place [] with
          | .error (e, tracked') => .failed e tracked' []
          | .ok (tracked', place_orders) =>
            match env.crank with
            | .error e => .failed e tracked' []
            | .ok crank =>
              match env.settle with
              | .error e => .failed e tracked' []
              | .ok settle =>
                match redeemStep redeemThreshold env with
                | .error e => .failed e tracked' []
                | .ok redeem =>
                  let batch :=
                    env.payer ++ cancellations ++ place_orders ++ crank ++ settle ++ redeem
                  match env.executeResult batch with
                  | .error e => .failed e tracked' [batch]
                  | .ok _ => .completed tracked' [batch]

/-- Events a pulse can emit on its `pulse_complete` / `pulse_error`
event sources. -/
inductive Event (ε : Type) : Type
  | pulseComplete
  | pulseError (e : ε)

/-- The observable outcome of one `pulse` call: the events emitted, the
tracker state on return, and the `.execute` calls made. -/
structure PulseOutcome (ε α : Type) : Type where
  events : List (Event ε)
  tracked : OrderTrackerState
  executions : List (List α)

/-- `MarketMaker.pulse`: run the body inside `try`; on normal completion
emit `pulse_complete`, on the `not_quoting` early return emit nothing, and
on any exception catch it and emit a single `pulse_error` carrying it —
the tracker is left exactly as it was at the failure point. -/
def pulse {ε α : Type} (redeemThreshold : Option ℚ) (env : PulseEnv ε α)
    (tracked : OrderTrackerState) : PulseOutcome ε α :=
  match pulseBody redeemThreshold env tracked with
  | .skipped tracked' ex => ⟨[], tracked', ex⟩
  | .completed tracked' ex => ⟨[.pulseComplete], tracked', ex⟩
  | .failed e tracked' ex => ⟨[.pulseError e], tracked', ex⟩

/-! ## Theorems -/

/-- The per-component content of `within_tolerance`: the order value is
within tolerance of the target exactly when its distance from the target
is *strictly* below `tolerance × order value` — the band is relative to
the existing order's value and exclusive at its boundary. -/
lemma within_tolerance_iff (target_value order_value tolerance : ℚ) :
    within_tolerance target_value order_value tolerance = true ↔
      |order_value - target_value| < tolerance * order_value := by
  simp only [within_tolerance, Bool.and_eq_true, decide_eq_true_eq, gt_iff_lt]
  rw [mul_comm tolerance order_value, abs_sub_lt_iff]
  constructor
  · rintro ⟨h1, h2⟩
    exact ⟨by linarith, by linarith⟩
  · rintro ⟨h1, h2⟩
    exact ⟨by linarith, by linarith⟩

/-- C3 counterexample: the claim — that the equivalence test holds exactly
when `|existing - desired| ≤ tolerance × desired` for price and size —
fails on the code.  At tolerance `0` with existing = desired = `1` the
claim's band accepts (`0 ≤ 0`) but the code's strict test rejects; at
tolerance `1` with existing price `5/2` against desired price `1` the
code's existing-relative band accepts but the claim's desired-relative
band rejects. -/
theorem orders_equivalence_claim_false :
    ¬ ((within_tolerance 1 1 0 && within_tolerance 1 1 0) = true ↔
        |(1 : ℚ) - 1| ≤ 0 * 1 ∧ |(1 : ℚ) - 1| ≤ 0 * 1)
    ∧ ¬ ((within_tolerance 1 (5 / 2) 1 && within_tolerance 1 1 1) = true ↔
        |(5 / 2 : ℚ) - 1| ≤ 1 * 1 ∧ |(1 : ℚ) - 1| ≤ 1 * 1) := by
  constructor
  · intro h
    have := h.mpr (by norm_num)
    simp only [within_tolerance, Bool.and_eq_true, decide_eq_true_eq] at this
    norm_num at this
  · intro h
    have hl : (within_tolerance 1 (5 / 2) 1 && within_tolerance 1 1 1) = true := by
      simp only [within_tolerance, Bool.and_eq_true, decide_eq_true_eq]
      norm_num
    have hp := (h.mp hl).1
    rw [show (5 / 2 : ℚ) - 1 = 3 / 2 by norm_num,
      abs_of_nonneg (by norm_num : (0 : ℚ) ≤ 3 / 2)] at hp
    norm_num at hp

/-- C3 (amended): for every existing order price/size, desired price/size
and tolerance `t ≥ 0`, the equivalence test that decides "no action
needed" holds exactly when both `|existing.price - desired.price| <
t × existing.price` and `|existing.size - desired.size| <
t × existing.size` — the band is relative to the *existing* value and
*exclusive* at its boundary, and both price and size must independently
satisfy it. -/
theorem orders_equivalence_characterization
    (existing_price existing_size desired_price desired_size t : ℚ) (_ht : 0 ≤ t) :
    (within_tolerance desired_price existing_price t
        && within_tolerance desired_size existing_size t) = true ↔
      |existing_price - desired_price| < t * existing_price
        ∧ |existing_size - desired_size| < t * existing_size := by
  rw [Bool.and_eq_true, within_tolerance_iff, within_tolerance_iff]

/-- C3 amended-claim witness at existing = desired = price 1, size 2,
tolerance 1/2. -/
theorem orders_equivalence_characterization_witness :
    (0 : ℚ) ≤ 1 / 2
    ∧ ((within_tolerance 1 1 (1 / 2) && within_tolerance 2 2 (1 / 2)) = true ↔
        |(1 : ℚ) - 1| < 1 / 2 * 1 ∧ |(2 : ℚ) - 2| < 1 / 2 * 2) :=
  ⟨by norm_num,
   orders_equivalence_characterization 1 2 1 2 (1 / 2) (by norm_num)⟩

/-- C9: at tolerance exactly `0`, `orders_require_action` returns `true`
even when every existing order's price and size exactly equal the desired
price and size: the tolerance comparison is strict, so identical orders
are still cancelled and re-placed. -/
theorem orders_require_action_zero_tolerance (orders : List Order) (price size : ℚ)
    (h : ∀ o ∈ orders, o.price = price ∧ o.size = size) :
    orders_require_action orders price size 0 = true := by
  cases orders with
  | nil => simp [orders_require_action]
  | cons o rest =>
    have hw : ∀ target_value order_value : ℚ,
        within_tolerance target_value order_value 0 = false := by
      intro tv ov
      simp only [within_tolerance, mul_zero, add_zero, sub_zero, gt_iff_lt,
        Bool.and_eq_false_iff, decide_eq_false_iff_not, not_lt]
      exact le_total tv ov
    simp [orders_require_action, hw]

/-- C9 witness: a single order exactly matching the desired price and size
still requires action at tolerance 0. -/
theorem orders_require_action_zero_tolerance_witness :
    orders_require_action [⟨Side.buy, 1, 2, 0⟩] 1 2 0 = true :=
  orders_require_action_zero_tolerance [⟨Side.buy, 1, 2, 0⟩] 1 2
    (by simp)

/-- C10: `RootBank.find_by_address` returns the unique element of the
sequence whose address equals the given address, and raises exactly when
no element matches or more than one element matches (the pure model
leaves the input sequence untouched). -/
theorem find_by_address_spec (values : List RootBank) (a : Nat) :
    (∀ r, RootBank.find_by_address values a = .ok r →
      r ∈ values ∧ r.address = a ∧ ∀ r' ∈ values, r'.address = a → r' = r)
    ∧ ((∃ msg, RootBank.find_by_address values a = .error msg) ↔
        (∀ r ∈ values, r.address ≠ a)
          ∨ 1 < (values.filter fun value => value.address == a).length) := by
  have hmem : ∀ r' ∈ values, r'.address = a →
      r' ∈ values.filter fun value => value.address == a := by
    intro r' hr' ha
    exact List.mem_filter.mpr ⟨hr', by simp [ha]⟩
  rcases hfl : values.filter fun value => value.address == a with _ | ⟨x, _ | ⟨y, rest⟩⟩
  · constructor
    · intro r hr
      rw [RootBank.find_by_address, hfl] at hr
      exact absurd hr (by simp)
    · constructor
      · intro _
        refine Or.inl fun r hr ha => ?_
        have : r ∈ ([] : List RootBank) := hfl ▸ hmem r hr ha
        simp at this
      · intro _
        exact ⟨"RootBank not found in root banks", by rw [RootBank.find_by_address, hfl]⟩
  · have hx : x ∈ values ∧ x.address = a := by
      have : x ∈ values.filter fun value => value.address == a := by rw [hfl]; simp
      have h2 := List.mem_filter.mp this
      exact ⟨h2.1, by simpa using h2.2⟩
    constructor
    · intro r hr
      rw [RootBank.find_by_address, hfl] at hr
      have hrx : x = r := by simpa using hr
      refine ⟨hrx ▸ hx.1, hrx ▸ hx.2, fun r' hr' ha => ?_⟩
      have hm2 : r' ∈ ([x] : List RootBank) := hfl ▸ hmem r' hr' ha
      have hr2 : r' = x := by simpa using hm2
      rw [hr2, hrx]
    · constructor
      · rintro ⟨msg, hmsg⟩
        rw [RootBank.find_by_address, hfl] at hmsg
        exact absurd hmsg (by simp)
      · rintro (hnone | hlen)
        · exact absurd hx.2 (hnone x hx.1)
        · rw [hfl] at hlen
          simp at hlen
  · constructor
    · intro r hr
      rw [RootBank.find_by_address, hfl] at hr
      exact absurd hr (by simp)
    · constructor
      · intro _
        refine Or.inr ?_
        rw [hfl]
        simp
      · intro _
        exact ⟨"RootBank matched multiple root banks",
          by rw [RootBank.find_by_address, hfl]⟩

/-- C10 witness: in a two-element list with distinct addresses, looking up
address 5 returns the unique matching bank. -/
theorem find_by_address_spec_witness :
    (⟨5, 0, 0⟩ : RootBank) ∈ [(⟨5, 0, 0⟩ : RootBank), ⟨6, 1, 1⟩]
    ∧ (⟨5, 0, 0⟩ : RootBank).address = 5
    ∧ ∀ r' ∈ [(⟨5, 0, 0⟩ : RootBank), ⟨6, 1, 1⟩], r'.address = 5 → r' = ⟨5, 0, 0⟩ :=
  (find_by_address_spec [⟨5, 0, 0⟩, ⟨6, 1, 1⟩] 5).1 ⟨5, 0, 0⟩ rfl

/-- If every call fails, `retryGo` makes every remaining attempt and ends
with the last attempt's outcome. -/
lemma retryGo_all_fail {ε β : Type} (op : Nat → Except ε β)
    (h : ∀ k, ∃ e, op k = .error e) :
    ∀ m k, retryGo op k m = (op (k + m), k + m + 1) := by
  intro m
  induction m with
  | zero => intro k; simp [retryGo]
  | succ m ih =>
    intro k
    obtain ⟨e, he⟩ := h k
    rw [retryGo, he, ih (k + 1)]
    ring_nf

/-- C4: with a pause sequence of length `N ≥ 1`, `RetryWithPauses.run`
calls the wrapped operation exactly `N` times when it raises on every
attempt — after which the final failure reaches the caller unchanged —
and exactly once when the first attempt succeeds. -/
theorem retryRun_call_counts {ε β δ : Type} (pauses : List δ) (op : Nat → Except ε β)
    (hN : 1 ≤ pauses.length) :
    ((∀ k, ∃ e, op k = .error e) →
        (retryRun op pauses).2 = pauses.length
          ∧ (retryRun op pauses).1 = op (pauses.length - 1))
    ∧ ∀ b, op 0 = .ok b →
        (retryRun op pauses).2 = 1 ∧ (retryRun op pauses).1 = .ok b := by
  constructor
  · intro h
    rw [retryRun, retryGo_all_fail op h]
    refine ⟨?_, by simp⟩
    simp only []
    omega
  · intro b hb
    rcases hm : pauses.length - 1 with _ | m
    · rw [retryRun, hm, retryGo, hb]
      exact ⟨rfl, rfl⟩
    · rw [retryRun, hm, retryGo, hb]
      exact ⟨rfl, rfl⟩

/-- C4 witness: with four pauses, an always-failing operation is called
exactly 4 times and its failure propagates; a first-attempt success is
called exactly once. -/
theorem retryRun_call_counts_witness :
    ((retryRun (fun _ => (.error 7 : Except Nat Nat)) [0, 0, 0, 0]).2 = 4
      ∧ (retryRun (fun _ => (.error 7 : Except Nat Nat)) [0, 0, 0, 0]).1 = .error 7)
    ∧ (retryRun (fun _ => (.ok 5 : Except Nat Nat)) [0, 0, 0, 0]).2 = 1 :=
  ⟨(retryRun_call_counts [0, 0, 0, 0] (fun _ => (.error 7 : Except Nat Nat))
      (by decide)).1 (fun k => ⟨7, rfl⟩),
   ((retryRun_call_counts [0, 0, 0, 0] (fun _ => (.ok 5 : Except Nat Nat))
      (by decide)).2 5 rfl).1⟩

/-- C8: tracking an order with a not-currently-tracked correlation id and
then calling `existing_orders` with an empty remote view yields a sequence
containing the order (and leaves it tracked); once the remote view
contains an order with that correlation id, a subsequent `existing_orders`
call returns the remote order while every order of the result carrying
that id comes from the remote view (no extra tracked copy), and the
tracked entry is dropped from the tracker as a side effect. -/
theorem track_existing_orders_roundtrip (tracked : OrderTrackerState)
    (o r : Order) (remote : List Order)
    (_h1 : ∀ t ∈ tracked, t.clientId ≠ o.clientId)
    (h2 : r ∈ remote) (h3 : r.clientId = o.clientId) :
    o ∈ (existing_orders (track tracked o) []).1
    ∧ (existing_orders (track tracked o) []).2 = track tracked o
    ∧ r ∈ (existing_orders (track tracked o) remote).1
    ∧ (∀ t ∈ (existing_orders (track tracked o) remote).1,
        t.clientId = o.clientId → t ∈ remote)
    ∧ ∀ t ∈ (existing_orders (track tracked o) remote).2,
        t.clientId ≠ o.clientId := by
  refine ⟨by simp [existing_orders, track], by simp [existing_orders],
    by simp [existing_orders, h2], ?_, ?_⟩
  · intro t ht hid
    rcases List.mem_append.mp ht with hrem | htr
    · exact hrem
    · have hfil := List.mem_filter.mp htr
      have : ¬ ∃ q ∈ remote, q.clientId = t.clientId := by
        simpa [List.any_eq_true] using hfil.2
      exact absurd ⟨r, h2, h3.trans hid.symm⟩ this
  · intro t ht hid
    have hfil := List.mem_filter.mp ht
    have : ¬ ∃ q ∈ remote, q.clientId = t.clientId := by
      simpa [List.any_eq_true] using hfil.2
    exact absurd ⟨r, h2, h3.trans hid.symm⟩ this

/-- C8 witness: track order with id 42 on an empty tracker; with an empty
remote view the merged sequence contains it; once the remote view reports
an order with id 42, the merged view is the remote order alone and the
tracker no longer holds id 42. -/
theorem track_existing_orders_roundtrip_witness :
    (⟨Side.buy, 1, 1, 42⟩ : Order) ∈ (existing_orders (track [] ⟨Side.buy, 1, 1, 42⟩) []).1
    ∧ (existing_orders (track [] ⟨Side.buy, 1, 1, 42⟩) []).2 = track [] ⟨Side.buy, 1, 1, 42⟩
    ∧ (⟨Side.buy, 1, 1, 42⟩ : Order)
        ∈ (existing_orders (track [] ⟨Side.buy, 1, 1, 42⟩) [⟨Side.buy, 1, 1, 42⟩]).1
    ∧ (∀ t ∈ (existing_orders (track [] ⟨Side.buy, 1, 1, 42⟩) [⟨Side.buy, 1, 1, 42⟩]).1,
        t.clientId = (⟨Side.buy, 1, 1, 42⟩ : Order).clientId → t ∈ [⟨Side.buy, 1, 1, 42⟩])
    ∧ ∀ t ∈ (existing_orders (track [] ⟨Side.buy, 1, 1, 42⟩) [⟨Side.buy, 1, 1, 42⟩]).2,
        t.clientId ≠ (⟨Side.buy, 1, 1, 42⟩ : Order).clientId :=
  track_existing_orders_roundtrip [] ⟨Side.buy, 1, 1, 42⟩ ⟨Side.buy, 1, 1, 42⟩
    [⟨Side.buy, 1, 1, 42⟩] (by simp) (by simp) rfl

/-- C1: whenever any step of the pulse body raises an exception `e`
(leaving the tracker in state `tracked'` and having made the execute
calls `ex`), `pulse` returns normally — no exception propagates to its
caller — emitting exactly the single event `pulse_error e`, and the
tracker is left exactly as it was at the point of failure. -/
theorem pulse_exception_boundary {ε α : Type} (redeemThreshold : Option ℚ)
    (env : PulseEnv ε α) (tracked : OrderTrackerState)
    (e : ε) (tracked' : OrderTrackerState) (ex : List (List α))
    (h : pulseBody redeemThreshold env tracked = .failed e tracked' ex) :
    pulse redeemThreshold env tracked = ⟨[.pulseError e], tracked', ex⟩ := by
  rw [pulse, h]

/-- An order used by the concrete pulse scenarios. -/
def sampleOrder : Order := ⟨Side.buy, 1, 2, 0⟩

/-- An order resting on the remote book in the concrete pulse scenarios. -/
def sampleRemote : Order := ⟨Side.sell, 3, 4, 9⟩

/-- A concrete pulse environment in which every step succeeds except the
final batch execution, which raises `5`; the reconciler asks to cancel
every existing order and place every desired order. -/
def envExecFails : PulseEnv Nat Nat where
  processResult := .ok [sampleOrder]
  notQuoting := false
  remoteOrders := []
  reconcile := fun existing desired => .ok ⟨existing, desired⟩
  buildCancel := fun _ => .ok [2]
  clientId := fun i => 100 + i
  buildPlace := fun _ => .ok [7]
  crank := .ok [3]
  settle := .ok [4]
  buildRedeem := .ok [9]
  payer := [1]
  liquidityIncentives := 0
  executeResult := fun _ => .error 5

/-- C1 witness: in `envExecFails` the batch execution raises `5`; the
pulse emits exactly one `pulse_error 5`, and the order tracked for the
submitted-but-unconfirmed placement (client id 100) remains tracked. -/
theorem pulse_exception_boundary_witness :
    pulse none envExecFails [] =
      ⟨[.pulseError 5], [sampleOrder.with_client_id 100], [[1, 7, 3, 4]]⟩ :=
  pulse_exception_boundary none envExecFails [] 5
    [sampleOrder.with_client_id 100] [[1, 7, 3, 4]] rfl

/-- C2: if the desired-orders chain was consulted successfully and the
suppression flag `model_state.not_quoting` is set, the pulse returns
having requested nothing: no execute call, no tracker mutation, and no
event — neither `pulse_complete` nor `pulse_error` — is emitted. -/
theorem pulse_not_quoting_skips {ε α : Type} (redeemThreshold : Option ℚ)
    (env : PulseEnv ε α) (tracked : OrderTrackerState) (desired : List Order)
    (h1 : env.processResult = .ok desired) (h2 : env.notQuoting = true) :
    pulse redeemThreshold env tracked = ⟨[], tracked, []⟩ := by
  rw [pulse, pulseBody, h1]
  simp only [h2, if_true]

/-- The environment of `envExecFails` with the suppression flag set. -/
def envNotQuoting : PulseEnv Nat Nat :=
  { envExecFails with notQuoting := true }

/-- C2 witness: with `not_quoting` set, the pulse over a nonempty tracker
leaves the tracker alone, executes nothing and emits nothing. -/
theorem pulse_not_quoting_skips_witness :
    pulse none envNotQuoting [sampleRemote] = ⟨[], [sampleRemote], []⟩ :=
  pulse_not_quoting_skips none envNotQuoting [sampleRemote] [sampleOrder] rfl rfl

/-- When every step up to the batch execution succeeds, the pulse makes
exactly one execute call, whose instruction sequence is the payer's
signers followed by all cancellations, then all placements, then crank,
settle and redeem instructions, and the returned tracker is the one the
place loop produced — whether the execution itself succeeds or raises. -/
lemma pulse_submission_outcome {ε α : Type} (redeemThreshold : Option ℚ)
    (env : PulseEnv ε α) (tracked : OrderTrackerState) (desired : List Order)
    (reconciled : Reconciled) (cancellations place_orders crank settle redeem : List α)
    (tracked' : OrderTrackerState)
    (h1 : env.processResult = .ok desired)
    (h2 : env.notQuoting = false)
    (h3 : env.reconcile (existing_orders tracked env.remoteOrders).1 desired
            = .ok reconciled)
    (h4 : cancelLoop env.buildCancel reconciled.to_cancel [] = .ok cancellations)
    (h5 : placeLoop env (existing_orders tracked env.remoteOrders).2 0
            reconciled.to_place [] = .ok (tracked', place_orders))
    (h6 : env.crank = .ok crank)
    (h7 : env.settle = .ok settle)
    (h8 : redeemStep redeemThreshold env = .ok redeem) :
    (pulse redeemThreshold env tracked).tracked = tracked'
    ∧ (pulse redeemThreshold env tracked).executions =
        [env.payer ++ cancellations ++ place_orders ++ crank ++ settle ++ redeem] := by
  rw [pulse, pulseBody, h1]
  simp only [h2, if_false, Bool.false_eq_true, h3, h4, h5, h6, h7, h8]
  cases hex : env.executeResult
      (env.payer ++ cancellations ++ place_orders ++ crank ++ settle ++ redeem) with
  | error e => simp [hex]
  | ok u => simp [hex]

/-- C5: in every pulse invocation that reaches submission, all
cancellation instructions precede all placement instructions in the
submitted sequence, and the cancels, places, crank, settle and redeem
instructions are submitted as one combined instruction sequence through a
single execute call. -/
theorem pulse_cancels_before_places {ε α : Type} (redeemThreshold : Option ℚ)
    (env : PulseEnv ε α) (tracked : OrderTrackerState) (desired : List Order)
    (reconciled : Reconciled) (cancellations place_orders crank settle redeem : List α)
    (tracked' : OrderTrackerState)
    (h1 : env.processResult = .ok desired)
    (h2 : env.notQuoting = false)
    (h3 : env.reconcile (existing_orders tracked env.remoteOrders).1 desired
            = .ok reconciled)
    (h4 : cancelLoop env.buildCancel reconciled.to_cancel [] = .ok cancellations)
    (h5 : placeLoop env (existing_orders tracked env.remoteOrders).2 0
            reconciled.to_place [] = .ok (tracked', place_orders))
    (h6 : env.crank = .ok crank)
    (h7 : env.settle = .ok settle)
    (h8 : redeemStep redeemThreshold env = .ok redeem) :
    (pulse redeemThreshold env tracked).executions =
      [env.payer ++ cancellations ++ place_orders ++ crank ++ settle ++ redeem] :=
  (pulse_submission_outcome redeemThreshold env tracked desired reconciled
    cancellations place_orders crank settle redeem tracked'
    h1 h2 h3 h4 h5 h6 h7 h8).2

/-- The environment of `envExecFails` with a successful batch execution. -/
def envExecOk : PulseEnv Nat Nat :=
  { envExecFails with
      remoteOrders := [sampleRemote]
      liquidityIncentives := 2
      executeResult := fun _ => .ok () }

/-- C5 witness: in `envExecOk` with redeem threshold 1, one existing
remote order is cancelled and one desired order placed; the single
execute call receives payer `[1]`, then the cancel instruction `[2]`,
then the place instruction `[7]`, then crank `[3]`, settle `[4]` and
redeem `[9]`. -/
theorem pulse_cancels_before_places_witness :
    (pulse (some 1) envExecOk []).executions =
      [[1] ++ [2] ++ [7] ++ [3] ++ [4] ++ [9]] :=
  pulse_cancels_before_places (some 1) envExecOk [] [sampleOrder]
    ⟨[sampleRemote], [sampleOrder]⟩ [2] [7] [3] [4] [9]
    [sampleOrder.with_client_id 100]
    rfl rfl rfl rfl rfl rfl rfl rfl

/-- The orders of a list with the client ids of the successive
`random_client_id` draws (starting at draw `i`) attached. -/
def assignClientIds (ids : Nat → Nat) (i : Nat) : List Order → List Order
  | [] => []
  | o :: rest => o.with_client_id (ids i) :: assignClientIds ids (i + 1) rest

/-- A successful place loop leaves the tracker extended by exactly the
orders to place, each carrying its freshly drawn client id. -/
lemma placeLoop_ok_tracker {ε α : Type} (env : PulseEnv ε α) :
    ∀ (orders : List Order) (tracked : OrderTrackerState) (i : Nat) (acc : List α)
      (tracked' : OrderTrackerState) (ins : List α),
      placeLoop env tracked i orders acc = .ok (tracked', ins) →
      tracked' = tracked ++ assignClientIds env.clientId i orders := by
  intro orders
  induction orders with
  | nil =>
    intro tracked i acc tracked' ins h
    rw [placeLoop] at h
    obtain ⟨h1, -⟩ := Prod.mk.injEq .. ▸ Except.ok.inj h
    simp [assignClientIds, h1.symm]
  | cons o rest ih =>
    intro tracked i acc tracked' ins h
    rw [placeLoop] at h
    cases hb : env.buildPlace (o.with_client_id (env.clientId i)) with
    | error e => rw [hb] at h; exact absurd h (by simp)
    | ok built =>
      rw [hb] at h
      have := ih (track tracked (o.with_client_id (env.clientId i))) (i + 1)
        (acc ++ built) tracked' ins h
      rw [this, track, assignClientIds]
      simp

/-- C6: in every pulse that reaches submission, each order of the
reconciliation's `to_place` sequence is assigned the client id of the
corresponding fresh `random_client_id` draw and is registered in the
OrderTracker strictly before the batch is executed: the tracker in force
at the (single) execute call — which is also the tracker `pulse` returns —
is the post-`existing_orders` tracker extended by exactly those orders,
so every submitted placement is already tracked at submission time. -/
theorem pulse_tracks_before_submission {ε α : Type} (redeemThreshold : Option ℚ)
    (env : PulseEnv ε α) (tracked : OrderTrackerState) (desired : List Order)
    (reconciled : Reconciled) (cancellations place_orders crank settle redeem : List α)
    (tracked' : OrderTrackerState)
    (h1 : env.processResult = .ok desired)
    (h2 : env.notQuoting = false)
    (h3 : env.reconcile (existing_orders tracked env.remoteOrders).1 desired
            = .ok reconciled)
    (h4 : cancelLoop env.buildCancel reconciled.to_cancel [] = .ok cancellations)
    (h5 : placeLoop env (existing_orders tracked env.remoteOrders).2 0
            reconciled.to_place [] = .ok (tracked', place_orders))
    (h6 : env.crank = .ok crank)
    (h7 : env.settle = .ok settle)
    (h8 : redeemStep redeemThreshold env = .ok redeem) :
    (pulse redeemThreshold env tracked).tracked =
      (existing_orders tracked env.remoteOrders).2
        ++ assignClientIds env.clientId 0 reconciled.to_place
    ∧ ∀ o ∈ assignClientIds env.clientId 0 reconciled.to_place,
        o ∈ (pulse redeemThreshold env tracked).tracked := by
  have hout := (pulse_submission_outcome redeemThreshold env tracked desired reconciled
    cancellations place_orders crank settle redeem tracked'
    h1 h2 h3 h4 h5 h6 h7 h8).1
  have htr := placeLoop_ok_tracker env reconciled.to_place
    (existing_orders tracked env.remoteOrders).2 0 [] tracked' place_orders h5
  refine ⟨hout.trans htr, fun o ho => ?_⟩
  rw [hout, htr]
  exact List.mem_append_right _ ho

/-- C6 witness: in `envExecOk` the desired order is tracked, carrying the
first drawn client id 100, before the (successful) execution; the pulse's
tracker is the post-`existing_orders` tracker extended by it. -/
theorem pulse_tracks_before_submission_witness :
    (pulse (some 1) envExecOk []).tracked =
      (existing_orders [] envExecOk.remoteOrders).2
        ++ assignClientIds envExecOk.clientId 0 [sampleOrder]
    ∧ ∀ o ∈ assignClientIds envExecOk.clientId 0 [sampleOrder],
        o ∈ (pulse (some 1) envExecOk []).tracked :=
  pulse_tracks_before_submission (some 1) envExecOk [] [sampleOrder]
    ⟨[sampleRemote], [sampleOrder]⟩ [2] [7] [3] [4] [9]
    [sampleOrder.with_client_id 100]
    rfl rfl rfl rfl rfl rfl rfl rfl

/-- C7: in every pulse that reaches submission, the redeem instructions
are included in the submitted batch exactly when a redeem threshold is
configured and the accrued liquidity-incentive value strictly exceeds it;
they are appended after the cancel, place, crank and settle instructions,
which are the same whether or not the redeem condition holds. -/
theorem pulse_redeem_condition {ε α : Type} (redeemThreshold : Option ℚ)
    (env : PulseEnv ε α) (tracked : OrderTrackerState) (desired : List Order)
    (reconciled : Reconciled) (cancellations place_orders crank settle redeemIns : List α)
    (tracked' : OrderTrackerState)
    (h1 : env.processResult = .ok desired)
    (h2 : env.notQuoting = false)
    (h3 : env.reconcile (existing_orders tracked env.remoteOrders).1 desired
            = .ok reconciled)
    (h4 : cancelLoop env.buildCancel reconciled.to_cancel [] = .ok cancellations)
    (h5 : placeLoop env (existing_orders tracked env.remoteOrders).2 0
            reconciled.to_place [] = .ok (tracked', place_orders))
    (h6 : env.crank = .ok crank)
    (h7 : env.settle = .ok settle)
    (h8 : env.buildRedeem = .ok redeemIns) :
    (pulse redeemThreshold env tracked).executions =
      [env.payer ++ cancellations ++ place_orders ++ crank ++ settle ++
        match redeemThreshold with
        | none => []
        | some threshold =>
          if env.liquidityIncentives > threshold then redeemIns else []] := by
  have h8' : redeemStep redeemThreshold env = .ok
      (match redeemThreshold with
       | none => []
       | some threshold =>
         if env.liquidityIncentives > threshold then redeemIns else []) := by
    rw [redeemStep.eq_def]
    cases redeemThreshold with
    | none => rfl
    | some threshold =>
      by_cases hc : env.liquidityIncentives > threshold
      · simp [hc, h8]
      · simp [hc]
  exact (pulse_submission_outcome redeemThreshold env tracked desired reconciled
    cancellations place_orders crank settle _ tracked'
    h1 h2 h3 h4 h5 h6 h7 h8').2

/-- C7 witness: in `envExecOk` (incentive value 2) the redeem instruction
`[9]` is appended when the threshold is 1. -/
theorem pulse_redeem_condition_witness :
    (pulse (some 1) envExecOk []).executions =
      [envExecOk.payer ++ [2] ++ [7] ++ [3] ++ [4] ++
        match some (1 : ℚ) with
        | none => []
        | some threshold =>
          if envExecOk.liquidityIncentives > threshold then [9] else []] :=
  pulse_redeem_condition (some 1) envExecOk [] [sampleOrder]
    ⟨[sampleRemote], [sampleOrder]⟩ [2] [7] [3] [4] [9]
    [sampleOrder.with_client_id 100]
    rfl rfl rfl rfl rfl rfl rfl rfl

end MangoExplorer
